import Mathlib

/-!
Verification of the multidimensional JSON store in `src/db.py`
(`JsonFileStorage` and `JSONMultiDB`).

The embedding is shallow and functional:

* JSON values are the inductive type `JsonVal`; Python `dict`s appear as
  `JsonVal.obj` with an association list of fields (Python dict keys are
  unique and insertion ordered, which association lists with
  replace-in-place insertion reproduce; numbers are modelled as integers,
  no claim depends on non-integer numerics).
* The mutable object state of a `JSONMultiDB` instance together with the
  backing file is the structure `DBState` (`dimensions`, `data`, `disk`);
  the file content is kept in parsed form (`Option JsonVal`, `none` for a
  missing file) because `json.loads (json.dumps x)` is the identity on
  well-formed JSON values.
* Each method of the source becomes a function from `DBState` to
  `DBState × result`.  The state returned on a raised exception reflects
  exactly the mutations performed before the `raise` in the source: in
  `set_value` and `delete_value` every raise happens before the first
  mutation of `self._data`, and `_persist` runs only after all mutations
  succeeded, which the definitions below mirror.
* Python exception classes become constructors of `DBError`; the message
  strings are elided.  `lockError` and `storageCorruption` correspond to
  `LockError` and `StorageCorruptionError` declared in
  `src/multidb/errors.py`; `src/db.py` never raises either.
-/

/-- A JSON-like value (Python `Any` restricted to JSON shapes, numbers as
integers). -/
inductive JsonVal where
  | null : JsonVal
  | bool (b : Bool) : JsonVal
  | num (n : Int) : JsonVal
  | str (s : String) : JsonVal
  | arr (xs : List JsonVal) : JsonVal
  | obj (fields : List (String × JsonVal)) : JsonVal

/-- Exception kinds raised (or declared) by the source; messages elided. -/
inductive DBError where
  | valueError : DBError
  | keyError : DBError
  | indexError : DBError
  | typeError : DBError
  | fileNotFound : DBError
  | lockError : DBError
  | storageCorruption : DBError
deriving DecidableEq

/-- `node[key]` lookup in a Python dict modelled as an association list. -/
def lookupKey : List (String × JsonVal) → String → Option JsonVal
  | [], _ => none
  | (k', v') :: rest, k => if k' = k then some v' else lookupKey rest k

/-- `node[key] = value` on a Python dict: replace in place when the key is
present (dict keys are unique, so at most one binding matches), append
otherwise. -/
def insertKey : List (String × JsonVal) → String → JsonVal → List (String × JsonVal)
  | [], k, v => [(k, v)]
  | (k', v') :: rest, k, v =>
      if k' = k then (k, v) :: rest else (k', v') :: insertKey rest k v

/-- `del node[key]` on a Python dict: drop the binding of `k` (association
lists coming from a dict hold each key at most once). -/
def eraseKey : List (String × JsonVal) → String → List (String × JsonVal)
  | [], _ => []
  | (k', v') :: rest, k =>
      if k' = k then eraseKey rest k else (k', v') :: eraseKey rest k

/-- The full mutable state relevant to one `JSONMultiDB` instance:
`self._dimensions`, `self._data` (the root dict of the tree), and the
content of the backing file (`none` when the file does not exist). -/
structure DBState where
  dimensions : Int
  data : List (String × JsonVal)
  disk : Option JsonVal

namespace JsonFileStorage

/-- `Path.write_text` dynamics at the level of observable on-disk
contents: the target is opened with mode `"w"`, which truncates it, and
the new text is then written.  The observable sequence of file contents
is therefore the prior text, the truncated (empty) file, and finally the
complete new text.  (Intermediate partial prefixes of the new text are
elided; the truncated state already witnesses every non-atomicity the
claims ask about.)  `JsonFileStorage.write` performs exactly one such
`write_text` directly on `self.path` — no temporary file, no rename. -/
def writeTextStates (old new : String) : List String :=
  [old, "", new]

/-- `JsonFileStorage.read` at the parsed level: a missing file raises
`FileNotFoundError`; otherwise the parsed JSON document is returned
unvalidated (`json.loads` of the stored text). -/
def read (disk : Option JsonVal) : Except DBError JsonVal :=
  match disk with
  | none => .error .fileNotFound
  | some j => .ok j

end JsonFileStorage

namespace JSONMultiDB

/-- `_persist`'s payload: `_default_structure(self._dimensions)` with its
`"data"` entry replaced by `self._data`. -/
def persistPayload (dims : Int) (data : List (String × JsonVal)) : JsonVal :=
  .obj [("meta", .obj [("dimensions", .num dims)]), ("data", .obj data)]

/-- `JSONMultiDB._default_structure`. -/
def default_structure (dims : Int) : JsonVal :=
  persistPayload dims []

/-- Python `int(x)` on a JSON value: integers pass through, booleans map
to 0/1, numeric strings are converted, everything else raises
`TypeError`/`ValueError` (here: `none`). -/
def pyInt : JsonVal → Option Int
  | .num n => some n
  | .bool b => some (if b then 1 else 0)
  | .str s => s.toInt?
  | _ => none

/-- `int(raw["meta"]["dimensions"])` from `_load`: `none` exactly when one
of `KeyError` (key missing), `TypeError` (indexing a non-dict or
converting a non-numeric shape) or `ValueError` (non-numeric string)
would be raised, all of which `_load` catches and turns into its own
`ValueError`. -/
def extract_dimensions (raw : JsonVal) : Option Int :=
  match raw with
  | .obj fields =>
      match lookupKey fields "meta" with
      | some (.obj m) =>
          match lookupKey m "dimensions" with
          | some dv => pyInt dv
          | none => none
      | _ => none
  | _ => none

/-- `JSONMultiDB._load`: read the file, extract `dimensions` (raising
`ValueError` when missing or bad), then `dict(raw.get("data", {}))` — a
missing `"data"` entry silently defaults to the empty dict; a non-dict
`"data"` entry makes `dict(...)` raise an uncaught `TypeError` (the
Python builtin also accepts iterables of key/value pairs, but no such
payload arises in any claim, so all non-dict cases are modelled as that
error).  No other validation of the payload is performed. -/
def load (disk : Option JsonVal) : Except DBError (Int × List (String × JsonVal)) :=
  match JsonFileStorage.read disk with
  | .error e => .error e
  | .ok raw =>
      match extract_dimensions raw with
      | none => .error .valueError
      | some dims =>
          match raw with
          | .obj fields =>
              match lookupKey fields "data" with
              | none => .ok (dims, [])
              | some (.obj dfields) => .ok (dims, dfields)
              | some _ => .error .typeError
          | _ => .error .typeError

/-- `JSONMultiDB.__init__`: construct the instance by `_load`ing the file.
The constructor also creates a fresh private `threading.Lock`; it takes
no file-level lock and consults no cross-instance state, so the state is
a function of the file content alone. -/
def init (disk : Option JsonVal) : Except DBError DBState :=
  match load disk with
  | .error e => .error e
  | .ok (dims, data) => .ok ⟨dims, data, disk⟩

/-- `JSONMultiDB.create_new`: validates `dimensions > 0`, then
unconditionally writes the empty structure over whatever is at the path
(no existence check, no overwrite flag) and constructs an instance from
the freshly written file.  Returns the new file content together with
the constructor's result. -/
def create_new (oldDisk : Option JsonVal) (dims : Int) :
    Option JsonVal × Except DBError DBState :=
  if dims ≤ 0 then (oldDisk, .error .valueError)
  else
    let disk := some (default_structure dims)
    (disk, init disk)

/-- The step `if key not in node or not isinstance(node[key], dict):
node[key] = {}` of `set_value`'s write loop: the dict the walk descends
into — the existing dict child, or a fresh empty one when the entry is
missing or not a dict. -/
def childFields (fs : List (String × JsonVal)) (k : String) : List (String × JsonVal) :=
  match lookupKey fs k with
  | some (.obj cf) => cf
  | _ => []

/-- The write loop of `set_value`: walk `coords[:-1]`, replacing a missing
or non-dict entry by a fresh `{}`, then assign the value at the final
key.  The empty-coordinate case is the `coords[-1]` `IndexError` and is
handled by the caller. -/
def setWalk (fs : List (String × JsonVal)) : List String → JsonVal → List (String × JsonVal)
  | [], _ => fs
  | [k], v => insertKey fs k v
  | k :: k2 :: rest, v =>
      insertKey fs k (.obj (setWalk (childFields fs k) (k2 :: rest) v))

/-- `JSONMultiDB.set_value`: arity check (raised before any mutation),
then the write loop on `self._data`, then `_persist` — the new tree is
written to disk before the call returns. -/
def set_value (s : DBState) (coords : List String) (v : JsonVal) :
    DBState × Option DBError :=
  if (coords.length : Int) ≠ s.dimensions then (s, some .valueError)
  else
    match coords with
    | [] => (s, some .indexError)
    | _ :: _ =>
        let data := setWalk s.data coords v
        ({ s with data := data, disk := some (persistPayload s.dimensions data) }, none)

/-- The read loop of `get_value`: intermediate keys must resolve to dicts
(`KeyError` otherwise), the final key to any present value. -/
def getWalk (fs : List (String × JsonVal)) : List String → Except DBError JsonVal
  | [] => .error .indexError
  | [k] =>
      match lookupKey fs k with
      | some v => .ok v
      | none => .error .keyError
  | k :: k2 :: rest =>
      match lookupKey fs k with
      | some (.obj cf) => getWalk cf (k2 :: rest)
      | _ => .error .keyError

/-- `JSONMultiDB.get_value`: arity check, then the pure read loop; the
method performs no assignment and no `_persist`, so the state component
is returned unchanged. -/
def get_value (s : DBState) (coords : List String) :
    DBState × Except DBError JsonVal :=
  if (coords.length : Int) ≠ s.dimensions then (s, .error .valueError)
  else (s, getWalk s.data coords)

/-- The deletion walk of `delete_value`: the traversal and the leaf-key
check can raise `KeyError` (in the source both happen before the first
mutation); on success the leaf is removed and every ancestor dict left
empty is removed as well, stopping at the first non-empty ancestor
(`if isinstance(child, dict) and not child: del parent[key] else: break`
— an empty recursive result erases the key in the parent, a non-empty
one is stored back, which keeps the parent non-empty and so stops all
higher pruning, exactly like the `break`). -/
def deleteWalk (fs : List (String × JsonVal)) :
    List String → Except DBError (List (String × JsonVal))
  | [] => .error .indexError
  | [k] =>
      match lookupKey fs k with
      | some _ => .ok (eraseKey fs k)
      | none => .error .keyError
  | k :: k2 :: rest =>
      match lookupKey fs k with
      | some (.obj cf) =>
          match deleteWalk cf (k2 :: rest) with
          | .error e => .error e
          | .ok [] => .ok (eraseKey fs k)
          | .ok cf' => .ok (insertKey fs k (.obj cf'))
      | _ => .error .keyError

/-- `JSONMultiDB.delete_value`: arity check, deletion walk (all raises
precede the first mutation), then `_persist` on success. -/
def delete_value (s : DBState) (coords : List String) : DBState × Option DBError :=
  if (coords.length : Int) ≠ s.dimensions then (s, some .valueError)
  else
    match deleteWalk s.data coords with
    | .error e => (s, some e)
    | .ok data =>
        ({ s with data := data, disk := some (persistPayload s.dimensions data) }, none)

/-- The read loop of `get_slice`: every key of the prefix must resolve
through dicts (`KeyError` otherwise); the reached node is returned. -/
def sliceWalk (node : JsonVal) : List String → Except DBError JsonVal
  | [] => .ok node
  | k :: rest =>
      match node with
      | .obj fs =>
          match lookupKey fs k with
          | some child => sliceWalk child rest
          | none => .error .keyError
      | _ => .error .keyError

/-- `JSONMultiDB.get_slice`: length check, pure read loop, then
`json.loads(json.dumps(node))` — a defensive deep copy, which on
well-formed JSON values is the identity and is modelled as such.  No
assignment, no `_persist`: the state component is returned unchanged. -/
def get_slice (s : DBState) (pfx : List String) :
    DBState × Except DBError JsonVal :=
  if (pfx.length : Int) > s.dimensions then (s, .error .valueError)
  else (s, sliceWalk (.obj s.data) pfx)

end JSONMultiDB

/-- A mutating call against a `JSONMultiDB` instance. -/
inductive DBOp where
  | set (coords : List String) (v : JsonVal) : DBOp
  | del (coords : List String) : DBOp

/-- Run one call, keeping the (unchanged) state when the call raises. -/
def applyOp (s : DBState) : DBOp → DBState
  | .set c v => (JSONMultiDB.set_value s c v).1
  | .del c => (JSONMultiDB.delete_value s c).1

/-- Run a call sequence left to right. -/
def applyOps (s : DBState) (ops : List DBOp) : DBState :=
  ops.foldl applyOp s

/-- Structural invariant of a subtree hanging `n` levels above leaf depth
at depth ≥ 1: for `n = 0` any value (a stored leaf document), otherwise a
non-empty dict of subtrees one level closer to the leaves. -/
def subOk : Nat → JsonVal → Bool
  | 0, _ => true
  | n + 1, .obj fs => !fs.isEmpty && fs.all (fun kv => subOk n kv.2)
  | _ + 1, _ => false

/-- Invariant for a dict whose entries hang `n` levels above leaf depth. -/
def listOk (n : Nat) (fs : List (String × JsonVal)) : Bool :=
  fs.all fun kv => subOk n kv.2

/-- Invariant of the root data dict of a store with `d ≥ 1` dimensions:
the root itself may be empty; every entry is a chain of non-empty
intermediate dicts with stored values at depth exactly `d`. -/
def dataOk (d : Nat) (fs : List (String × JsonVal)) : Bool :=
  listOk (d - 1) fs

/-- `stateInv d s`: the instance has `d` dimensions and its data tree
satisfies the depth invariant. -/
def stateInv (d : Nat) (s : DBState) : Prop :=
  s.dimensions = (d : Int) ∧ dataOk d s.data = true

theorem lookupKey_insertKey_self (fs : List (String × JsonVal)) (k : String) (v : JsonVal) :
    lookupKey (insertKey fs k v) k = some v := by
  induction fs with
  | nil => simp [insertKey, lookupKey]
  | cons kv rest ih =>
      obtain ⟨k', v'⟩ := kv
      by_cases h : k' = k
      · simp [insertKey, lookupKey, h]
      · simp [insertKey, lookupKey, h, ih]

theorem lookupKey_eraseKey_self (fs : List (String × JsonVal)) (k : String) :
    lookupKey (eraseKey fs k) k = none := by
  induction fs with
  | nil => simp [eraseKey, lookupKey]
  | cons kv rest ih =>
      obtain ⟨k', v'⟩ := kv
      by_cases h : k' = k
      · simp [eraseKey, h, ih]
      · simp [eraseKey, lookupKey, h, ih]

theorem insertKey_ne_nil (fs : List (String × JsonVal)) (k : String) (v : JsonVal) :
    insertKey fs k v ≠ [] := by
  cases fs with
  | nil => simp [insertKey]
  | cons kv rest =>
      obtain ⟨k', v'⟩ := kv
      by_cases h : k' = k <;> simp [insertKey, h]

theorem mem_insertKey (fs : List (String × JsonVal)) (k : String) (v : JsonVal)
    (kv : String × JsonVal) (h : kv ∈ insertKey fs k v) : kv ∈ fs ∨ kv = (k, v) := by
  induction fs with
  | nil => simp [insertKey] at h; simp [h]
  | cons kv' rest ih =>
      obtain ⟨k', v'⟩ := kv'
      by_cases hk : k' = k
      · simp [insertKey, hk] at h
        rcases h with h | h
        · right; exact h
        · left; simp [h]
      · simp [insertKey, hk] at h
        rcases h with h | h
        · left; simp [h]
        · rcases ih h with h' | h'
          · left; simp [h']
          · right; exact h'

theorem mem_eraseKey (fs : List (String × JsonVal)) (k : String)
    (kv : String × JsonVal) (h : kv ∈ eraseKey fs k) : kv ∈ fs := by
  induction fs with
  | nil => simp [eraseKey] at h
  | cons kv' rest ih =>
      obtain ⟨k', v'⟩ := kv'
      by_cases hk : k' = k
      · simp [eraseKey, hk] at h
        exact List.mem_cons_of_mem _ (ih h)
      · simp [eraseKey, hk] at h
        rcases h with h | h
        · simp [h]
        · exact List.mem_cons_of_mem _ (ih h)

theorem mem_of_lookupKey (fs : List (String × JsonVal)) (k : String) (v : JsonVal)
    (h : lookupKey fs k = some v) : (k, v) ∈ fs := by
  induction fs with
  | nil => simp [lookupKey] at h
  | cons kv rest ih =>
      obtain ⟨k', v'⟩ := kv
      by_cases hk : k' = k
      · simp [lookupKey, hk] at h
        simp [hk, h]
      · simp [lookupKey, hk] at h
        exact List.mem_cons_of_mem _ (ih h)

theorem listOk_iff (n : Nat) (fs : List (String × JsonVal)) :
    listOk n fs = true ↔ ∀ kv ∈ fs, subOk n kv.2 = true := by
  simp [listOk, List.all_eq_true]

theorem listOk_zero (fs : List (String × JsonVal)) : listOk 0 fs = true := by
  simp [listOk_iff, subOk]

theorem setWalk_ne_nil : ∀ (fs : List (String × JsonVal)) (c : List String) (v : JsonVal),
    c ≠ [] → JSONMultiDB.setWalk fs c v ≠ []
  | fs, [k], v, _ => by
      simp only [JSONMultiDB.setWalk]
      exact insertKey_ne_nil fs k v
  | fs, k :: k2 :: rest, v, _ => by
      simp only [JSONMultiDB.setWalk]
      exact insertKey_ne_nil _ k _

theorem listOk_childFields (m : Nat) (fs : List (String × JsonVal)) (k : String)
    (h : listOk (m + 1) fs = true) : listOk m (JSONMultiDB.childFields fs k) = true := by
  unfold JSONMultiDB.childFields
  cases hl : lookupKey fs k with
  | none => simp [listOk]
  | some w =>
      cases w with
      | obj cf =>
          have hmem := mem_of_lookupKey fs k _ hl
          have hsub := (listOk_iff _ fs).mp h _ hmem
          simp only [subOk, Bool.and_eq_true] at hsub
          exact hsub.2
      | null => simp [listOk]
      | bool b => simp [listOk]
      | num n => simp [listOk]
      | str s => simp [listOk]
      | arr xs => simp [listOk]

theorem listOk_setWalk : ∀ (c : List String) (n : Nat) (fs : List (String × JsonVal)) (v : JsonVal),
    c.length = n + 1 → listOk n fs = true → listOk n (JSONMultiDB.setWalk fs c v) = true
  | [k], n, fs, v, hc, h => by
      have hn : n = 0 := by simp at hc; omega
      subst hn
      exact listOk_zero _
  | k :: k2 :: rest, n, fs, v, hc, h => by
      have hn : n = rest.length + 1 := by simp at hc; omega
      subst hn
      simp only [JSONMultiDB.setWalk]
      rw [listOk_iff]
      intro kv hkv
      rcases mem_insertKey _ _ _ _ hkv with hin | heq
      · exact (listOk_iff _ _).mp h kv hin
      · subst heq
        simp only [subOk, Bool.and_eq_true]
        constructor
        · have hne := setWalk_ne_nil (JSONMultiDB.childFields fs k) (k2 :: rest) v (by simp)
          simp [List.isEmpty_eq_true, hne]
        · exact listOk_setWalk (k2 :: rest) rest.length (JSONMultiDB.childFields fs k) v rfl
            (listOk_childFields _ _ _ h)

theorem listOk_deleteWalk : ∀ (c : List String) (n : Nat) (fs fs' : List (String × JsonVal)),
    c.length = n + 1 → listOk n fs = true → JSONMultiDB.deleteWalk fs c = .ok fs' →
    listOk n fs' = true
  | [k], n, fs, fs', hc, h, hd => by
      have hn : n = 0 := by simp at hc; omega
      subst hn
      exact listOk_zero _
  | k :: k2 :: rest, n, fs, fs', hc, h, hd => by
      have hn : n = rest.length + 1 := by simp at hc; omega
      subst hn
      simp only [JSONMultiDB.deleteWalk] at hd
      cases hl : lookupKey fs k with
      | none => rw [hl] at hd; simp at hd
      | some w =>
          rw [hl] at hd
          cases w with
          | obj cf =>
              dsimp only [] at hd
              cases hdel : JSONMultiDB.deleteWalk cf (k2 :: rest) with
              | error e => rw [hdel] at hd; simp at hd
              | ok cf' =>
                  rw [hdel] at hd
                  cases cf' with
                  | nil =>
                      simp at hd
                      subst hd
                      rw [listOk_iff]
                      intro kv hkv
                      exact (listOk_iff _ _).mp h kv (mem_eraseKey _ _ _ hkv)
                  | cons a l =>
                      simp at hd
                      subst hd
                      rw [listOk_iff]
                      intro kv hkv
                      rcases mem_insertKey _ _ _ _ hkv with hin | heq
                      · exact (listOk_iff _ _).mp h kv hin
                      · subst heq
                        simp only [subOk, Bool.and_eq_true]
                        refine ⟨by simp, ?_⟩
                        have hmem := mem_of_lookupKey fs k _ hl
                        have hsub := (listOk_iff _ fs).mp h _ hmem
                        simp only [subOk, Bool.and_eq_true] at hsub
                        exact listOk_deleteWalk (k2 :: rest) rest.length cf (a :: l) rfl
                          hsub.2 hdel
          | null => simp at hd
          | bool b => simp at hd
          | num m => simp at hd
          | str s => simp at hd
          | arr xs => simp at hd

theorem getWalk_setWalk : ∀ (c : List String) (fs : List (String × JsonVal)) (v : JsonVal),
    c ≠ [] → JSONMultiDB.getWalk (JSONMultiDB.setWalk fs c v) c = .ok v
  | [k], fs, v, _ => by
      simp [JSONMultiDB.setWalk, JSONMultiDB.getWalk, lookupKey_insertKey_self]
  | k :: k2 :: rest, fs, v, _ => by
      simp only [JSONMultiDB.setWalk, JSONMultiDB.getWalk, lookupKey_insertKey_self]
      exact getWalk_setWalk (k2 :: rest) _ v (by simp)

theorem deleteWalk_pruned : ∀ (c : List String) (fs fs' : List (String × JsonVal)),
    JSONMultiDB.deleteWalk fs c = .ok fs' →
    JSONMultiDB.sliceWalk (.obj fs') c = .error .keyError ∧
    (∀ i g, 0 < i → i < c.length →
      JSONMultiDB.sliceWalk (.obj fs') (c.take i) = .ok (.obj g) → g ≠ [])
  | [], fs, fs', hd => by simp [JSONMultiDB.deleteWalk] at hd
  | [k], fs, fs', hd => by
      simp only [JSONMultiDB.deleteWalk] at hd
      cases hl : lookupKey fs k with
      | none => rw [hl] at hd; simp at hd
      | some w =>
          rw [hl] at hd
          simp at hd
          subst hd
          refine ⟨by simp [JSONMultiDB.sliceWalk, lookupKey_eraseKey_self], ?_⟩
          intro i g hi hlen hs
          simp at hlen
          omega
  | k :: k2 :: rest, fs, fs', hd => by
      simp only [JSONMultiDB.deleteWalk] at hd
      cases hl : lookupKey fs k with
      | none => rw [hl] at hd; simp at hd
      | some w =>
          rw [hl] at hd
          cases w with
          | obj cf =>
              dsimp only [] at hd
              cases hdel : JSONMultiDB.deleteWalk cf (k2 :: rest) with
              | error e => rw [hdel] at hd; simp at hd
              | ok cf' =>
                  rw [hdel] at hd
                  cases cf' with
                  | nil =>
                      simp at hd
                      subst hd
                      refine ⟨by simp [JSONMultiDB.sliceWalk, lookupKey_eraseKey_self], ?_⟩
                      intro i g hi hlen hs
                      cases i with
                      | zero => omega
                      | succ j =>
                          simp [List.take_succ_cons, JSONMultiDB.sliceWalk,
                            lookupKey_eraseKey_self] at hs
                  | cons a l =>
                      simp at hd
                      subst hd
                      have hsome := lookupKey_insertKey_self fs k (JsonVal.obj (a :: l))
                      have IH := deleteWalk_pruned (k2 :: rest) cf (a :: l) hdel
                      refine ⟨?_, ?_⟩
                      · simp only [JSONMultiDB.sliceWalk, hsome]
                        exact IH.1
                      · intro i g hi hlen hs
                        cases i with
                        | zero => omega
                        | succ j =>
                            simp only [List.take_succ_cons, JSONMultiDB.sliceWalk,
                              hsome] at hs
                            cases j with
                            | zero =>
                                simp [JSONMultiDB.sliceWalk] at hs
                                simp [← hs]
                            | succ j' =>
                                simp only [List.length_cons] at hlen
                                exact IH.2 (j' + 1) g (by omega) (by simp; omega) hs
          | null => simp at hd
          | bool b => simp at hd
          | num m => simp at hd
          | str s => simp at hd
          | arr xs => simp at hd

theorem load_persistPayload (dims : Int) (data : List (String × JsonVal)) :
    JSONMultiDB.load (some (JSONMultiDB.persistPayload dims data)) = .ok (dims, data) := rfl

theorem load_error_kinds (disk : Option JsonVal) (e : DBError)
    (h : JSONMultiDB.load disk = .error e) :
    e = .fileNotFound ∨ e = .valueError ∨ e = .typeError := by
  unfold JSONMultiDB.load JsonFileStorage.read at h
  cases disk with
  | none => simp at h; simp [h]
  | some raw =>
      dsimp only [] at h
      cases hx : JSONMultiDB.extract_dimensions raw with
      | none => rw [hx] at h; simp at h; simp [h]
      | some dims =>
          rw [hx] at h
          dsimp only [] at h
          cases raw with
          | obj fields =>
              dsimp only [] at h
              cases hl : lookupKey fields "data" with
              | none => rw [hl] at h; simp at h
              | some w =>
                  rw [hl] at h
                  cases w with
                  | obj dfields => simp at h
                  | null => simp at h; simp [h]
                  | bool b => simp at h; simp [h]
                  | num m => simp at h; simp [h]
                  | str s => simp at h; simp [h]
                  | arr xs => simp at h; simp [h]
          | null => simp at h; simp [h]
          | bool b => simp at h; simp [h]
          | num m => simp at h; simp [h]
          | str s => simp at h; simp [h]
          | arr xs => simp at h; simp [h]

theorem stateInv_create_new (d : Nat) (oldDisk : Option JsonVal) (s₀ : DBState)
    (hd : 0 < d) (h : (JSONMultiDB.create_new oldDisk (d : Int)).2 = .ok s₀) :
    stateInv d s₀ := by
  unfold JSONMultiDB.create_new at h
  rw [if_neg (by omega : ¬ (d : Int) ≤ 0)] at h
  dsimp only [] at h
  unfold JSONMultiDB.init JSONMultiDB.default_structure at h
  rw [load_persistPayload] at h
  dsimp only [] at h
  simp only [Except.ok.injEq] at h
  subst h
  exact ⟨rfl, rfl⟩

theorem stateInv_applyOp (d : Nat) (s : DBState) (op : DBOp)
    (hd : 0 < d) (h : stateInv d s) : stateInv d (applyOp s op) := by
  obtain ⟨h1, h2⟩ := h
  obtain ⟨m, hm⟩ : ∃ m, d = m + 1 := ⟨d - 1, by omega⟩
  subst hm
  cases op with
  | set c v =>
      dsimp only [applyOp]
      unfold JSONMultiDB.set_value
      by_cases hc : (c.length : Int) ≠ s.dimensions
      · rw [if_pos hc]; exact ⟨h1, h2⟩
      · rw [if_neg hc]
        push_neg at hc
        cases c with
        | nil => exact ⟨h1, h2⟩
        | cons k rest =>
            refine ⟨h1, ?_⟩
            have hlen : (k :: rest).length = m + 1 := by
              rw [h1] at hc
              exact_mod_cast hc
            exact listOk_setWalk (k :: rest) m s.data v hlen h2
  | del c =>
      dsimp only [applyOp]
      unfold JSONMultiDB.delete_value
      by_cases hc : (c.length : Int) ≠ s.dimensions
      · rw [if_pos hc]; exact ⟨h1, h2⟩
      · rw [if_neg hc]
        push_neg at hc
        cases hdw : JSONMultiDB.deleteWalk s.data c with
        | error e => exact ⟨h1, h2⟩
        | ok data =>
            refine ⟨h1, ?_⟩
            have hlen : c.length = m + 1 := by
              rw [h1] at hc
              exact_mod_cast hc
            exact listOk_deleteWalk c m s.data data hlen h2 hdw

theorem stateInv_applyOps (d : Nat) (ops : List DBOp) (hd : 0 < d) :
    ∀ s : DBState, stateInv d s → stateInv d (applyOps s ops) := by
  induction ops with
  | nil => intro s h; exact h
  | cons op rest ih =>
      intro s h
      exact ih (applyOp s op) (stateInv_applyOp d s op hd h)

theorem set_value_success_eq (s : DBState) (c : List String) (v : JsonVal)
    (hc : (c.length : Int) = s.dimensions) (hne : c ≠ []) :
    JSONMultiDB.set_value s c v =
      ({ s with
          data := JSONMultiDB.setWalk s.data c v,
          disk := some (JSONMultiDB.persistPayload s.dimensions
            (JSONMultiDB.setWalk s.data c v)) }, none) := by
  unfold JSONMultiDB.set_value
  rw [if_neg (by omega)]
  cases c with
  | nil => exact absurd rfl hne
  | cons k rest => rfl

theorem init_error_of (disk : Option JsonVal) (e : DBError)
    (h : JSONMultiDB.init disk = .error e) : JSONMultiDB.load disk = .error e := by
  unfold JSONMultiDB.init at h
  cases hl : JSONMultiDB.load disk with
  | error e' =>
      rw [hl] at h
      simp at h
      rw [h]
  | ok p =>
      rcases p with ⟨dims, data⟩
      rw [hl] at h
      simp at h

/-- C1 (counterexample): `JsonFileStorage.write` is a single direct
`write_text` onto the target path, so the truncated intermediate file
content `""` is observable during a write replacing snapshot `"A"` by
snapshot `"B"` — and it equals neither, refuting that at every
intermediate point of the write the on-disk file is either the complete
prior snapshot or the complete new snapshot. -/
theorem write_torn_state_counterexample :
    "" ∈ JsonFileStorage.writeTextStates "A" "B" ∧ "" ≠ "A" ∧ "" ≠ "B" := by
  decide

/-- C1 (amended): a `JsonFileStorage.write` starts from the complete
prior file content and ends with the complete new serialized content,
but it writes directly over the target (no temporary path beside it, no
atomic replace), so a torn intermediate state — the truncated file — is
observable in between. -/
theorem write_direct_overwrite (old new : String) :
    (JsonFileStorage.writeTextStates old new).head? = some old ∧
    (JsonFileStorage.writeTextStates old new).getLast? = some new :=
  ⟨rfl, rfl⟩

/-- C2 (counterexample): on a freshly created 1-dimensional store, a
successful `set_value` (no error raised) changes the on-disk file
immediately — the claim that a successful set leaves the file unchanged
and nothing reaches disk before a commit is false. -/
theorem set_value_touches_disk_counterexample :
    (JSONMultiDB.set_value ⟨1, [], some (JSONMultiDB.default_structure 1)⟩
        ["a"] (.num 1)).2 = none ∧
    (JSONMultiDB.set_value ⟨1, [], some (JSONMultiDB.default_structure 1)⟩
        ["a"] (.num 1)).1.disk ≠ some (JSONMultiDB.default_structure 1) := by
  refine ⟨rfl, ?_⟩
  intro h
  simp [JSONMultiDB.set_value, JSONMultiDB.setWalk, insertKey,
    JSONMultiDB.persistPayload, JSONMultiDB.default_structure] at h

/-- C2 (amended): for every coordinate of correct arity, a successful
`set_value` records the write directly in the instance's in-memory data
tree and immediately persists the whole tree to the on-disk file — there
is no overlay, and the data reaches disk inside the `set_value` call
itself. -/
theorem set_value_direct_persist (s : DBState) (c : List String) (v : JsonVal)
    (hc : (c.length : Int) = s.dimensions) (hne : c ≠ []) :
    JSONMultiDB.set_value s c v =
      ({ s with
          data := JSONMultiDB.setWalk s.data c v,
          disk := some (JSONMultiDB.persistPayload s.dimensions
            (JSONMultiDB.setWalk s.data c v)) }, none) :=
  set_value_success_eq s c v hc hne

theorem set_value_direct_persist_witness :
    JSONMultiDB.set_value ⟨1, [], none⟩ ["a"] (.num 2) =
      ({ dimensions := 1,
         data := JSONMultiDB.setWalk [] ["a"] (.num 2),
         disk := some (JSONMultiDB.persistPayload 1
           (JSONMultiDB.setWalk [] ["a"] (.num 2))) }, none) :=
  set_value_direct_persist ⟨1, [], none⟩ ["a"] (.num 2) (by decide) (by decide)

/-- C3: for every state with positive dimensions and every coordinate of
correct arity, `set_value` succeeds (persisting within the call itself —
`src/db.py` has no separate commit step), and reopening the written file
(`__init__`/`_load`) followed by `get_value` returns exactly the value
written: the durable write/read round-trip across a reload. -/
theorem set_persist_reload_get_roundtrip (s : DBState) (c : List String) (v : JsonVal)
    (hd : 0 < s.dimensions) (hc : (c.length : Int) = s.dimensions) :
    (JSONMultiDB.set_value s c v).2 = none ∧
    JSONMultiDB.init (JSONMultiDB.set_value s c v).1.disk =
      .ok ⟨s.dimensions, JSONMultiDB.setWalk s.data c v,
        (JSONMultiDB.set_value s c v).1.disk⟩ ∧
    (JSONMultiDB.get_value
      ⟨s.dimensions, JSONMultiDB.setWalk s.data c v,
        (JSONMultiDB.set_value s c v).1.disk⟩ c).2 = .ok v := by
  have hne : c ≠ [] := by
    intro hnil
    subst hnil
    simp at hc
    omega
  rw [set_value_success_eq s c v hc hne]
  refine ⟨rfl, ?_, ?_⟩
  · unfold JSONMultiDB.init
    dsimp only []
    rw [load_persistPayload]
  · unfold JSONMultiDB.get_value
    dsimp only []
    rw [if_neg (by omega)]
    exact getWalk_setWalk c s.data v hne

theorem set_persist_reload_get_roundtrip_witness :
    (JSONMultiDB.get_value
      ⟨(⟨2, [], none⟩ : DBState).dimensions,
        JSONMultiDB.setWalk [] ["a", "b"] (.str "x"),
        (JSONMultiDB.set_value ⟨2, [], none⟩ ["a", "b"] (.str "x")).1.disk⟩
      ["a", "b"]).2 = .ok (.str "x") :=
  (set_persist_reload_get_roundtrip ⟨2, [], none⟩ ["a", "b"] (.str "x")
    (by decide) (by decide)).2.2

/-- C4: a successful `delete_value` removes the leaf — walking the full
coordinate through the resulting tree fails with `KeyError` — and prunes
every ancestor dict the deletion left empty, recursively upward until
the first non-empty ancestor or the root: every proper prefix of the
coordinate that still resolves to a dict in the resulting tree resolves
to a non-empty one. -/
theorem delete_value_prunes_empty_ancestors (s : DBState) (c : List String)
    (h : (JSONMultiDB.delete_value s c).2 = none) :
    JSONMultiDB.sliceWalk (.obj (JSONMultiDB.delete_value s c).1.data) c =
      .error .keyError ∧
    ∀ i g, 0 < i → i < c.length →
      JSONMultiDB.sliceWalk (.obj (JSONMultiDB.delete_value s c).1.data) (c.take i) =
        .ok (.obj g) → g ≠ [] := by
  unfold JSONMultiDB.delete_value at h ⊢
  by_cases hc : (c.length : Int) ≠ s.dimensions
  · rw [if_pos hc] at h
    simp at h
  · rw [if_neg hc] at h ⊢
    cases hdw : JSONMultiDB.deleteWalk s.data c with
    | error e =>
        rw [hdw] at h
        simp at h
    | ok data =>
        dsimp only []
        exact deleteWalk_pruned c s.data data hdw

theorem delete_value_prunes_empty_ancestors_witness :
    JSONMultiDB.sliceWalk
      (.obj (JSONMultiDB.delete_value
        ⟨3, [("a", .obj [("b", .obj [("c", .num 1)]), ("x", .num 2)])], none⟩
        ["a", "b", "c"]).1.data)
      ["a", "b", "c"] = .error .keyError :=
  (delete_value_prunes_empty_ancestors
    ⟨3, [("a", .obj [("b", .obj [("c", .num 1)]), ("x", .num 2)])], none⟩
    ["a", "b", "c"] rfl).1

/-- C5 (counterexample): a file whose top-level shape is wrong — it has
no `"data"` block at all — is loaded successfully with an empty tree
instead of raising `StorageCorruptionError`, refuting that every
structural failure of the on-disk content raises it. -/
theorem load_missing_data_counterexample :
    JSONMultiDB.load (some (.obj [("meta", .obj [("dimensions", .num 2)])])) =
      .ok (2, []) := rfl

/-- C5 (amended): a missing file is reported distinctly as
`FileNotFoundError`; a missing or non-convertible `meta.dimensions`
raises `ValueError`; a missing `"data"` block silently defaults to the
empty tree; `StorageCorruptionError` is never raised and the data
block's structure is not otherwise validated. -/
theorem load_error_taxonomy (disk : Option JsonVal) :
    JSONMultiDB.load none = .error .fileNotFound ∧
    JSONMultiDB.load disk ≠ .error .storageCorruption ∧
    (∀ raw, JSONMultiDB.extract_dimensions raw = none →
      JSONMultiDB.load (some raw) = .error .valueError) ∧
    (∀ fields dims, JSONMultiDB.extract_dimensions (.obj fields) = some dims →
      lookupKey fields "data" = none →
      JSONMultiDB.load (some (.obj fields)) = .ok (dims, [])) := by
  refine ⟨rfl, ?_, ?_, ?_⟩
  · intro h
    rcases load_error_kinds disk _ h with h' | h' | h' <;> exact DBError.noConfusion h'
  · intro raw hraw
    simp [JSONMultiDB.load, JsonFileStorage.read, hraw]
  · intro fields dims hdims hdata
    simp [JSONMultiDB.load, JsonFileStorage.read, hdims, hdata]

theorem load_error_taxonomy_witness :
    JSONMultiDB.load none = .error DBError.fileNotFound :=
  (load_error_taxonomy none).1

/-- C6 (counterexample): `create_new` called on a path holding an
existing valid 1-dimensional database with data replaces the file with
the empty 2-dimensional structure, which differs from the prior content;
its signature carries no overwrite request at all, so the claim that an
existing file is preserved absent an explicit overwrite request is
false. -/
theorem create_new_overwrites_counterexample :
    (JSONMultiDB.create_new (some (JSONMultiDB.persistPayload 1 [("a", .num 5)])) 2).1 =
      some (JSONMultiDB.default_structure 2) ∧
    JSONMultiDB.default_structure 2 ≠ JSONMultiDB.persistPayload 1 [("a", .num 5)] := by
  refine ⟨rfl, ?_⟩
  intro h
  simp [JSONMultiDB.default_structure, JSONMultiDB.persistPayload] at h

/-- C6 (amended): for every positive `dimensions`, `create_new`
unconditionally writes the empty structure over whatever file content
existed — it performs no existence check and accepts no caller-supplied
overwrite request (its own docstring says "Create (or overwrite)"). -/
theorem create_new_unconditional_write (oldDisk : Option JsonVal) (dims : Int)
    (h : 0 < dims) :
    (JSONMultiDB.create_new oldDisk dims).1 =
      some (JSONMultiDB.default_structure dims) := by
  unfold JSONMultiDB.create_new
  rw [if_neg (by omega)]

theorem create_new_unconditional_write_witness :
    (JSONMultiDB.create_new (some (JSONMultiDB.default_structure 3)) 1).1 =
      some (JSONMultiDB.default_structure 1) :=
  create_new_unconditional_write (some (JSONMultiDB.default_structure 3)) 1 (by decide)

/-- C7 (counterexample): with a valid 1-dimensional file on disk, a first
read-write open succeeds, leaves the file unchanged, and a second open
of that same file — performed while the first instance is live — also
succeeds rather than failing with `LockError`: `__init__` takes no file
lock and consults no cross-instance state. -/
theorem second_open_no_lockerror_counterexample :
    JSONMultiDB.init (some (JSONMultiDB.default_structure 1)) =
      .ok ⟨1, [], some (JSONMultiDB.default_structure 1)⟩ ∧
    JSONMultiDB.init
        (DBState.disk ⟨1, [], some (JSONMultiDB.default_structure 1)⟩) ≠
      .error .lockError := by
  refine ⟨rfl, ?_⟩
  intro h
  rw [show JSONMultiDB.init
      (DBState.disk ⟨1, [], some (JSONMultiDB.default_structure 1)⟩) =
      .ok ⟨1, [], some (JSONMultiDB.default_structure 1)⟩ from rfl] at h
  exact Except.noConfusion h

/-- C7 (amended): opening a database (`__init__`) never fails with
`LockError` — the constructor only creates a fresh private in-process
`threading.Lock` and takes no file-level lock — and a successful open
leaves the file unchanged, so reopening the same file read-write while
the first instance is still live succeeds with the identical state. -/
theorem init_never_lockerror (disk : Option JsonVal) :
    JSONMultiDB.init disk ≠ .error .lockError ∧
    ∀ s, JSONMultiDB.init disk = .ok s →
      s.disk = disk ∧ JSONMultiDB.init s.disk = .ok s := by
  constructor
  · intro h
    rcases load_error_kinds disk _ (init_error_of disk _ h) with h' | h' | h' <;>
      exact DBError.noConfusion h'
  · intro s hs
    unfold JSONMultiDB.init at hs
    cases hl : JSONMultiDB.load disk with
    | error e =>
        rw [hl] at hs
        simp at hs
    | ok p =>
        rcases p with ⟨dims, data⟩
        rw [hl] at hs
        dsimp only [] at hs
        simp only [Except.ok.injEq] at hs
        subst hs
        refine ⟨rfl, ?_⟩
        unfold JSONMultiDB.init
        rw [hl]

theorem init_never_lockerror_witness :
    (⟨2, [], some (JSONMultiDB.default_structure 2)⟩ : DBState).disk =
      some (JSONMultiDB.default_structure 2) :=
  ((init_never_lockerror (some (JSONMultiDB.default_structure 2))).2
    ⟨2, [], some (JSONMultiDB.default_structure 2)⟩ rfl).1

/-- C8: every failing `set_value` or `delete_value` call (wrong
coordinate arity; missing intermediate or leaf key on delete) leaves the
instance state — the in-memory data tree and the on-disk file — exactly
as it was before the call: in the source every raise happens before the
first mutation and `_persist` runs only on success. -/
theorem failed_mutation_leaves_state_unchanged (s : DBState) (c : List String)
    (v : JsonVal) :
    (∀ e, (JSONMultiDB.set_value s c v).2 = some e →
      (JSONMultiDB.set_value s c v).1 = s) ∧
    (∀ e, (JSONMultiDB.delete_value s c).2 = some e →
      (JSONMultiDB.delete_value s c).1 = s) := by
  constructor
  · intro e he
    unfold JSONMultiDB.set_value at he ⊢
    by_cases hc : (c.length : Int) ≠ s.dimensions
    · rw [if_pos hc]
    · rw [if_neg hc] at he ⊢
      cases c with
      | nil => rfl
      | cons k rest => simp at he
  · intro e he
    unfold JSONMultiDB.delete_value at he ⊢
    by_cases hc : (c.length : Int) ≠ s.dimensions
    · rw [if_pos hc]
    · rw [if_neg hc] at he ⊢
      cases hdw : JSONMultiDB.deleteWalk s.data c with
      | error e' => rfl
      | ok data =>
          rw [hdw] at he
          dsimp only [] at he
          exact Option.noConfusion he

theorem failed_mutation_leaves_state_unchanged_witness :
    (JSONMultiDB.set_value ⟨2, [], none⟩ ["a"] (.num 1)).1 = ⟨2, [], none⟩ :=
  (failed_mutation_leaves_state_unchanged ⟨2, [], none⟩ ["a"] (.num 1)).1
    .valueError rfl

/-- C9: starting from a database freshly created with `d > 0` dimensions
and applying any sequence of `set_value`/`delete_value` calls (failing
calls leave the state unchanged), the data tree satisfies the depth
invariant `dataOk d`: every node reached by fewer than `d` coordinate
components is a dict, every stored value sits at depth exactly `d`, and
every intermediate dict at depths 1 through d-1 is non-empty. -/
theorem tree_depth_invariant_preserved (d : Nat) (oldDisk : Option JsonVal)
    (s₀ : DBState) (ops : List DBOp) (hd : 0 < d)
    (h₀ : (JSONMultiDB.create_new oldDisk (d : Int)).2 = .ok s₀) :
    dataOk d (applyOps s₀ ops).data = true :=
  (stateInv_applyOps d ops hd s₀ (stateInv_create_new d oldDisk s₀ hd h₀)).2

theorem tree_depth_invariant_preserved_witness :
    dataOk 2 (applyOps ⟨2, [], some (JSONMultiDB.default_structure 2)⟩
      [DBOp.set ["a", "b"] (.num 1), DBOp.del ["a", "b"]]).data = true :=
  tree_depth_invariant_preserved 2 none
    ⟨2, [], some (JSONMultiDB.default_structure 2)⟩
    [DBOp.set ["a", "b"] (.num 1), DBOp.del ["a", "b"]] (by decide) rfl

/-- C10: `get_slice` on a prefix of admissible length returns exactly the
subtree reached by walking the prefix (the `json.loads(json.dumps(...))`
defensive copy is the identity on JSON values) and leaves the instance
state — in-memory tree and on-disk file — unchanged; `get_value` likewise
never changes the state. -/
theorem reads_are_pure (s : DBState) (pfx c : List String)
    (h : (pfx.length : Int) ≤ s.dimensions) :
    (JSONMultiDB.get_slice s pfx).1 = s ∧
    (JSONMultiDB.get_slice s pfx).2 = JSONMultiDB.sliceWalk (.obj s.data) pfx ∧
    (JSONMultiDB.get_value s c).1 = s := by
  unfold JSONMultiDB.get_slice JSONMultiDB.get_value
  rw [if_neg (by omega)]
  refine ⟨rfl, rfl, ?_⟩
  by_cases hc : (c.length : Int) ≠ s.dimensions
  · rw [if_pos hc]
  · rw [if_neg hc]

theorem reads_are_pure_witness :
    (JSONMultiDB.get_slice ⟨1, [("a", .num 3)], none⟩ ["a"]).1 =
      ⟨1, [("a", .num 3)], none⟩ :=
  (reads_are_pure ⟨1, [("a", .num 3)], none⟩ ["a"] ["a"] (by decide)).1
